import Mathlib

/-!
# Verification of the riptun device/queue lifecycle manager

A shallow embedding of the riptun library (Linux TUN multi-queue device
manager) together with proofs about its behaviour.

Conventions of the embedding:
* Rust byte strings (`&str`) are modelled as `List Nat`, one entry per byte.
  `str::is_ascii` is `∀ b ∈ l, b ≤ 127`.
* Machine integers (`RawFd = i32`, ioctl return codes) are modelled as `Int`;
  file-status flags (`c_int` bitmasks) as `Nat` with explicit bitwise ops.
* Fallible operations return `Except Error α` mirroring `Result<T, Error>`.
* Kernel/OS behaviour (syscall return values, readiness-race outcomes) is an
  explicit input: either a return-value parameter or a schedule (list of
  per-iteration outcomes), and syscalls performed by the code are recorded as
  explicit event lists so that resource-cleanup claims can be stated.
-/

namespace Riptun

/-- `libc::IFNAMSIZ` on Linux. -/
def IF_NAME_SIZE : Nat := 16

/-- `libc::IFF_TUN`. -/
def IFF_TUN : Nat := 0x0001

/-- `libc::IFF_NO_PI`. -/
def IFF_NO_PI : Nat := 0x1000

/-- `libc::IFF_MULTI_QUEUE`. -/
def IFF_MULTI_QUEUE : Nat := 0x0100

/-- `IFF_FLAGS = IFF_TUN | IFF_NO_PI | IFF_MULTI_QUEUE` (src/queue/linux/req.rs). -/
def IFF_FLAGS : Nat := IFF_TUN ||| IFF_NO_PI ||| IFF_MULTI_QUEUE

/-- The error enum of src/error.rs.  Payloads that the claims never inspect
(`io::Error` sources, paths) are reduced to the data the code stores:
an errno number, an ioctl return code, a queue index, or the offending name. -/
inductive Error where
  | Unix (errno : Nat)
  | UnixIoctl (code : Int)
  | FS (path : List Nat) (errno : Nat)
  | Io (errno : Nat)
  | InvalidQueue (idx : Nat)
  | InvalidNumQueues
  | InvalidName (name : List Nat) (max_size : Nat)
  deriving DecidableEq, Repr

/-- `IfReq` (src/queue/linux/req.rs): a fixed-size interface-request record,
a name buffer of `IFNAMSIZ` bytes plus a 16-bit flags field. -/
structure IfReq where
  name : List Nat
  flags : Nat
  deriving DecidableEq, Repr

/-- `str::is_ascii`: every byte of the UTF-8 representation is `≤ 0x7f`. -/
def isAscii (s : List Nat) : Bool := s.all (· ≤ 127)

/-- The name-buffer fill of `IfReq::new`: the Rust code starts from
`[b'\0'; IF_NAME_SIZE]` and overwrites index `idx` with byte `char` for each
`(idx, char)` in `name_str.as_bytes().iter().take(IF_NAME_SIZE).enumerate()`.
Writing the first `min (length) IF_NAME_SIZE` cells and keeping the zero suffix
is exactly `take IF_NAME_SIZE` of the bytes followed by the untouched zeros. -/
def fillName (s : List Nat) : List Nat :=
  s.take IF_NAME_SIZE ++ List.replicate (IF_NAME_SIZE - s.length) 0

/-- `IfReq::new` (src/queue/linux/req.rs): reject empty or non-ASCII names,
otherwise copy up to `IF_NAME_SIZE` bytes into the zeroed buffer and set the
fixed flag combination. -/
def IfReq.new (name_str : List Nat) : Except Error IfReq :=
  if name_str.isEmpty || !(isAscii name_str) then
    .error (.InvalidName name_str IF_NAME_SIZE)
  else
    .ok { name := fillName name_str, flags := IFF_FLAGS }

/-- `IfReq::name`: read the stored buffer up to the first zero byte. -/
def IfReq.getName (r : IfReq) : List Nat :=
  r.name.takeWhile (· != 0)

/-- `Queue` (src/queue/linux/sync.rs): `#[derive(Clone)] pub struct Queue(RawFd)`,
a single raw file descriptor. -/
structure Queue where
  fd : Int
  deriving DecidableEq, Repr

/-- `#[derive(Clone)]` on a tuple struct over `RawFd = i32`: a field-for-field
copy, i.e. a second `Queue` value holding the same descriptor. -/
def Queue.clone (q : Queue) : Queue :=
  { fd := q.fd }

/-- Outcome of one `Queue::close` call: the queue value after the call
(`&mut self`), the returned `Result`, and the argument actually passed to the
`libc::close` syscall. -/
structure CloseOutcome where
  queue : Queue
  result : Except Error Unit
  called : Int
  deriving Repr

/-- `Queue::close` (src/queue/linux/sync.rs): invoke `libc::close(self.0)`;
`os` gives the OS return value for closing a given descriptor and `errno` the
thread errno observed on failure.  On a negative return the error is returned;
on success the stored descriptor is set to the `-1` sentinel. -/
def Queue.close (q : Queue) (os : Int → Int) (errno : Nat) : CloseOutcome :=
  let ret := os q.fd
  if ret < 0 then
    { queue := q, result := .error (.Unix errno), called := q.fd }
  else
    { queue := { fd := -1 }, result := .ok (), called := q.fd }

/-- `libc::O_RDWR`. -/
def O_RDWR : Nat := 2

/-- `libc::O_NONBLOCK` on Linux (octal 04000). -/
def O_NONBLOCK : Nat := 0o4000

/-- The union of the `O_*` status-flag bits that `nix::fcntl::OFlag` defines on
Linux (access modes plus `O_CREAT` through `O_TMPFILE`); `OFlag::from_bits`
succeeds exactly on numbers using only these bits. -/
def OFlagKnownBits : Nat :=
  0o3 ||| 0o100 ||| 0o200 ||| 0o400 ||| 0o1000 ||| 0o2000 ||| 0o4000 |||
  0o10000 ||| 0o20000 ||| 0o40000 ||| 0o100000 ||| 0o200000 ||| 0o400000 |||
  0o1000000 ||| 0o2000000 ||| 0o4000000 ||| 0o10000000 ||| 0o20000000

/-- `nix::fcntl::OFlag::from_bits`: `some` iff every set bit is a known flag. -/
def oflagFromBits (b : Nat) : Option Nat :=
  if b &&& OFlagKnownBits = b then some b else none

/-- Outcomes of the two `fcntl` syscalls issued by `set_non_blocking` plus the
errno reported on a failing one. -/
structure FcntlOs where
  getflOk : Bool
  setflOk : Bool
  errno : Nat
  deriving Repr

/-- Result of one `Queue::set_non_blocking` call: the descriptor status flags
after the call, the returned `Result`, and whether an `F_SETFL` syscall was
issued at all. -/
structure SetNBOutcome where
  flags : Nat
  result : Except Error Unit
  wrote : Bool
  deriving Repr

/-- `Queue::set_non_blocking` (src/queue/linux/sync.rs): read the current
status flags with `F_GETFL`, parse them (`from_bits(..).unwrap_or(O_RDWR)`),
insert or remove `O_NONBLOCK` only when it differs from the requested state
(otherwise return `Ok(())` without writing), then write back with `F_SETFL`.
`flags` is the descriptor state the kernel reports; `bitflags` removal is
and-not, expressed inside the known-bit universe as `&&& (known ^^^ bit)`. -/
def Queue.set_non_blocking (flags : Nat) (os : FcntlOs) (enable : Bool) : SetNBOutcome :=
  if !os.getflOk then
    { flags := flags, result := .error (.Unix os.errno), wrote := false }
  else
    let parsed := (oflagFromBits flags).getD O_RDWR
    if enable && !(parsed &&& O_NONBLOCK == O_NONBLOCK) then
      let newFlags := parsed ||| O_NONBLOCK
      if !os.setflOk then
        { flags := flags, result := .error (.Unix os.errno), wrote := true }
      else
        { flags := newFlags, result := .ok (), wrote := true }
    else if !enable && (parsed &&& O_NONBLOCK == O_NONBLOCK) then
      let newFlags := parsed &&& (OFlagKnownBits ^^^ O_NONBLOCK)
      if !os.setflOk then
        { flags := flags, result := .error (.Unix os.errno), wrote := true }
      else
        { flags := newFlags, result := .ok (), wrote := true }
    else
      { flags := flags, result := .ok (), wrote := false }

/-- `EAGAIN`/`EWOULDBLOCK` on Linux: the errno that `std::io` classifies as
`ErrorKind::WouldBlock`. -/
def EAGAIN : Nat := 11

/-- A `std::io::Error` as the code builds them: either a raw OS errno
(`last_os_error` / `from_raw_os_error`) or a wrapped library `Error`
(`io::Error::new(ErrorKind::Other, err)`). -/
inductive IoErr where
  | os (errno : Nat)
  | wrapped (e : Error)
  deriving DecidableEq, Repr

/-- `e.kind() == ErrorKind::WouldBlock`: true exactly for a raw OS error whose
errno is `EAGAIN` (`== EWOULDBLOCK` on Linux); wrapped errors have kind
`Other`. -/
def IoErr.kindWouldBlock : IoErr → Bool
  | .os errno => errno == EAGAIN
  | .wrapped _ => false

/-- `Error::into_io` (src/error.rs): `FS`/`IO` return their `io::Error` source,
`Unix` converts the errno with `from_raw_os_error`, everything else is wrapped
in a new error of kind `Other`. -/
def Error.into_io : Error → IoErr
  | .FS _ errno => .os errno
  | .Io errno => .os errno
  | .Unix errno => .os errno
  | e => .wrapped e

/-- `Queue::send` (src/queue/linux/sync.rs): one raw `libc::write` of the whole
buffer; `written` is the value the OS returns, `errno` the errno when it is
negative.  Negative return becomes `last_os_error`, otherwise the byte count is
returned as-is (partial writes included). -/
def Queue.send (q : Queue) (datagram : List Nat) (written : Int) (errno : Nat) :
    Except IoErr Nat :=
  if written < 0 then .error (.os errno) else .ok written.toNat

/-- `Queue::recv` (src/queue/linux/sync.rs): one raw `libc::read` into the
buffer, with the same return-value convention as `Queue.send`. -/
def Queue.recv (q : Queue) (datagram : List Nat) (readRet : Int) (errno : Nat) :
    Except IoErr Nat :=
  if readRet < 0 then .error (.os errno) else .ok readRet.toNat

/-- `Tun` (src/tun/sync.rs): the ordered queue collection plus the resolved
device name. -/
structure Tun where
  queues : List Queue
  name : List Nat
  deriving Repr

/-- A kernel-visible descriptor event: `libc::open` on the TUN control path
succeeded returning `fd`, or `libc::close` was invoked on `fd`.  Event traces
make resource-cleanup behaviour provable. -/
inductive Ev where
  | osOpen (fd : Int)
  | osClose (fd : Int)
  deriving DecidableEq, Repr

/-- Is this event a `close` syscall? -/
def Ev.isClose : Ev → Bool
  | .osOpen _ => false
  | .osClose _ => true

/-- The bytes of the `b"/dev/net/tun\0"` control path. -/
def devNetTunPath : List Nat :=
  [47, 100, 101, 118, 47, 110, 101, 116, 47, 116, 117, 110, 0]

/-- The OS-side outcome of one `Queue::open` attempt: either the
`libc::open("/dev/net/tun")` call fails, or it yields `fd` and the
`TUNSETQUEUE`/ioctl configuration call then either fails with an errno
(`nix` returns `Err(Errno)`) or returns a code. -/
inductive OpenOutcome where
  | fsFail (errno : Nat)
  | opened (fd : Int) (ioctl : Except Nat Int)
  deriving Repr

/-- `Queue::open` (src/queue/linux/sync.rs): open the control path (negative
return: `Error::FS`), issue the `create_queue` ioctl (`nix` errno failure:
`Error::Unix` via `?`; return code `>= 1`: `Error::UnixIoctl`), otherwise the
descriptor is owned by the new `Queue`.  Also returns the descriptor events
the attempt caused. -/
def Queue.openModel : OpenOutcome → Except Error Queue × List Ev
  | .fsFail errno => (.error (.FS devNetTunPath errno), [])
  | .opened fd (.error errno) => (.error (.Unix errno), [.osOpen fd])
  | .opened fd (.ok ret) =>
    if ret ≥ 1 then (.error (.UnixIoctl ret), [.osOpen fd])
    else (.ok { fd := fd }, [.osOpen fd])

/-- The `for _ in 0..num_queues { queues.push(T::open(&req)?) }` loop of
`new_queues` (src/queue/linux/mod.rs): `os i` is the OS outcome of the i-th
open attempt; the first failing open aborts the loop via `?`.  No `close` is
ever issued on this path. -/
def openLoop (os : Nat → OpenOutcome) : Nat → Nat → Except Error (List Queue) × List Ev
  | _, 0 => (.ok [], [])
  | i, n + 1 =>
    match Queue.openModel (os i) with
    | (.error e, evs) => (.error e, evs)
    | (.ok q, evs) =>
      match openLoop os (i + 1) n with
      | (.error e, evs2) => (.error e, evs ++ evs2)
      | (.ok qs, evs2) => (.ok (q :: qs), evs ++ evs2)

/-- `new_queues` (src/queue/linux/mod.rs): build one `IfReq`, open `num`
queues against it, return the queues and the (possibly truncated) effective
name from `req.name()`. -/
def new_queues (name : List Nat) (num : Nat) (os : Nat → OpenOutcome) :
    Except Error (List Queue × List Nat) × List Ev :=
  match IfReq.new name with
  | .error e => (.error e, [])
  | .ok req =>
    match openLoop os 0 num with
    | (.error e, evs) => (.error e, evs)
    | (.ok qs, evs) => (.ok (qs, req.getName), evs)

/-- `Tun::new` (src/tun/sync.rs): reject `num_queues < 1` with
`InvalidNumQueues`, otherwise delegate to `new_queues`. -/
def Tun.new (name : List Nat) (num : Nat) (os : Nat → OpenOutcome) :
    Except Error Tun × List Ev :=
  if num < 1 then (.error .InvalidNumQueues, [])
  else
    match new_queues name num os with
    | (.error e, evs) => (.error e, evs)
    | (.ok (qs, nm), evs) => (.ok { queues := qs, name := nm }, evs)

/-- The `for mut queue in self.drain(..) { queue.close()?; }` body of
`Tun::close` (src/tun/sync.rs): close each drained queue in index order; the
`?` returns the first error immediately.  `errnoFn` gives the errno the failed
close of a given descriptor would report; the event list records the `close`
syscalls actually issued. -/
def closeLoop (os : Int → Int) (errnoFn : Int → Nat) :
    List Queue → Except Error Unit × List Ev
  | [] => (.ok (), [])
  | q :: rest =>
    match (Queue.close q os (errnoFn q.fd)).result with
    | .error e => (.error e, [.osClose q.fd])
    | .ok _ =>
      match closeLoop os errnoFn rest with
      | (r, evs) => (r, .osClose q.fd :: evs)

/-- `Tun::close` (src/tun/sync.rs): drain every queue and close each in turn.
Whether the loop finishes or aborts early through `?`, dropping the `Drain`
iterator removes all drained elements, so the device ends with an empty queue
collection either way. -/
def Tun.close (t : Tun) (os : Int → Int) (errnoFn : Int → Nat) :
    Tun × Except Error Unit × List Ev :=
  match closeLoop os errnoFn t.queues with
  | (r, evs) => ({ t with queues := [] }, r, evs)

/-- `Tun::get` (src/tun/sync.rs) at a `usize` index: checked `Vec` lookup. -/
def Tun.get (t : Tun) (i : Nat) : Option Queue :=
  t.queues.get? i

/-- `Tun::send_via` (src/tun/sync.rs): bounds-check via `get`, convert an
out-of-range index to `Error::from(queue).into_io()`, otherwise delegate to
the addressed queue's raw send. -/
def Tun.send_via (t : Tun) (queue : Nat) (datagram : List Nat)
    (written : Int) (errno : Nat) : Except IoErr Nat :=
  match t.get queue with
  | none => .error (Error.into_io (.InvalidQueue queue))
  | some q => q.send datagram written errno

/-- `Tun::recv_via` (src/tun/sync.rs): bounds-check via `get`, convert an
out-of-range index to `Error::from(queue).into_io()`, otherwise delegate to
the addressed queue's raw recv. -/
def Tun.recv_via (t : Tun) (queue : Nat) (datagram : List Nat)
    (readRet : Int) (errno : Nat) : Except IoErr Nat :=
  match t.get queue with
  | none => .error (Error.into_io (.InvalidQueue queue))
  | some q => q.recv datagram readRet errno

/-- One iteration of the multiplexed `AsyncStdTun::recv`/`send` loop
(src/tun/async/std.rs), as resolved by the scheduler: `select_all` picks the
winning index `winIdx`, `ready` is the winning readiness future's result, and
`io` is the outcome of the raw I/O attempt on the winning queue (only consulted
when the code reaches it). -/
structure MuxStep where
  winIdx : Nat
  ready : Except IoErr Unit
  io : Except IoErr Nat
  deriving Repr

/-- The `loop` of `AsyncStdTun::recv`/`AsyncStdTun::send`
(src/tun/async/std.rs) over a device with `n` queues, driven by the schedule
of per-iteration race outcomes.  Each iteration rebuilds the readiness futures
of all `n` queues (`self.iter()`), races them, propagates a readiness error,
re-checks the winning index against the queue collection, attempts the raw
I/O on the winner only, and loops exactly when that attempt reports a
would-block error.  `none` means the schedule ended with the loop still
running (the call is still suspended). -/
def muxRun (n : Nat) : List MuxStep → Option (Except IoErr Nat)
  | [] => none
  | s :: rest =>
    match s.ready with
    | .error e => some (.error e)
    | .ok _ =>
      if s.winIdx < n then
        match s.io with
        | .error e =>
          if e.kindWouldBlock then muxRun n rest else some (.error e)
        | .ok cnt => some (.ok cnt)
      else
        some (.error (Error.into_io (.InvalidQueue s.winIdx)))

/-- One iteration of the multiplexed `TokioTun::recv`/`send` loop
(src/tun/async/tokio.rs): `ready` is the winning `readable()`/`writable()`
future's result (an `AsyncFdReadyGuard` on success), `io` the outcome of the
raw I/O closure run under `guard.try_io`. -/
structure TokioMuxStep where
  ready : Except IoErr Unit
  io : Except IoErr Nat
  deriving Repr

/-- `tokio::io::unix::AsyncFdReadyGuard::try_io`: when the closure fails with a
would-block error the readiness is cleared and `Err(TryIoError)` is returned;
any other closure result is returned inside `Ok`. -/
def tryIoTokio (io : Except IoErr Nat) : Except Unit (Except IoErr Nat) :=
  match io with
  | .error e => if e.kindWouldBlock then .error () else .ok (.error e)
  | .ok cnt => .ok (.ok cnt)

/-- The `loop` of `TokioTun::recv`/`TokioTun::send` (src/tun/async/tokio.rs):
race all readiness futures with `select_all`, propagate a readiness error,
run the raw I/O under `try_io` on the winning guard, return its result, and
loop exactly when `try_io` reports the would-block marker. -/
def tokioMuxRun : List TokioMuxStep → Option (Except IoErr Nat)
  | [] => none
  | s :: rest =>
    match s.ready with
    | .error e => some (.error e)
    | .ok _ =>
      match tryIoTokio s.io with
      | .error _ => tokioMuxRun rest
      | .ok res => some res

/-! ## Helper lemmas -/

/-- `takeWhile` passes over a prefix on which the predicate holds. -/
lemma takeWhile_append_of_all (p : Nat → Bool) (s t : List Nat)
    (h : ∀ b ∈ s, p b = true) :
    (s ++ t).takeWhile p = s ++ t.takeWhile p := by
  induction s with
  | nil => simp
  | cons x xs ih =>
    have hx : p x = true := h x (by simp)
    simp only [List.cons_append, List.takeWhile_cons, hx, if_true]
    rw [ih fun b hb => h b (by simp [hb])]

/-- `takeWhile (· != 0)` stops immediately on a zero-filled buffer. -/
lemma takeWhile_replicate_zero (k : Nat) (hk : 1 ≤ k) :
    (List.replicate k (0 : Nat)).takeWhile (· != 0) = [] := by
  obtain ⟨m, rfl⟩ : ∃ m, k = m + 1 := ⟨k - 1, by omega⟩
  rfl

/-- Any number masked by a superset of its bits is unchanged when a further
masked number is or-ed in. -/
lemma lor_land_mask (a b m : Nat) (ha : a &&& m = a) (hb : b &&& m = b) :
    (a ||| b) &&& m = a ||| b := by
  apply Nat.eq_of_testBit_eq
  intro i
  have ha2 := congrArg (fun x => x.testBit i) ha
  have hb2 := congrArg (fun x => x.testBit i) hb
  simp only [Nat.testBit_land, Nat.testBit_lor] at *
  cases h1 : a.testBit i <;> cases h2 : b.testBit i <;> cases h3 : m.testBit i <;>
    simp_all

/-- Or-ing a bit in makes the containment test succeed. -/
lemma lor_land_self (a b : Nat) : (a ||| b) &&& b = b := by
  apply Nat.eq_of_testBit_eq
  intro i
  simp only [Nat.testBit_land, Nat.testBit_lor]
  cases a.testBit i <;> cases b.testBit i <;> rfl

/-! ## C3: truncation of over-long names -/

/-- C3 counterexample.  The claim says a name longer than `capacity − 1` bytes
is stored truncated to exactly `capacity − 1` bytes with at least one zero byte
left in the buffer.  For the 17-byte name `aaaaaaaaaaaaaaaaa`, `IfReq::new`
stores the first 16 = `IF_NAME_SIZE` bytes, the stored buffer contains no zero
byte at all, and the effective name read back has 16 bytes, not 15. -/
theorem claim3_counterexample :
    IfReq.new (List.replicate 17 97) =
      .ok { name := List.replicate 16 97, flags := IFF_FLAGS }
    ∧ (IfReq.new (List.replicate 17 97)).map IfReq.getName =
      .ok (List.replicate 16 97)
    ∧ (List.replicate 16 (97 : Nat)).length ≠ IF_NAME_SIZE - 1
    ∧ (0 : Nat) ∉ List.replicate 16 (97 : Nat) :=
  ⟨rfl, rfl, by decide, by decide⟩

/-- C3 amended: for every ASCII, non-empty name longer than `capacity − 1`
bytes, `IfReq::new` stores a name truncated to exactly `capacity` bytes
(`IF_NAME_SIZE`, all of the buffer), so no zero byte is guaranteed to remain:
when none of the copied bytes is zero the stored buffer is not NUL-terminated
and reading the name back yields all `capacity` bytes. -/
theorem claim3_truncates_to_capacity (s : List Nat)
    (hne : s.isEmpty = false) (hascii : isAscii s = true)
    (hlen : s.length > IF_NAME_SIZE - 1) :
    IfReq.new s = .ok { name := s.take IF_NAME_SIZE, flags := IFF_FLAGS }
    ∧ (s.take IF_NAME_SIZE).length = IF_NAME_SIZE
    ∧ ((∀ b ∈ s.take IF_NAME_SIZE, b ≠ 0) →
        IfReq.getName { name := s.take IF_NAME_SIZE, flags := IFF_FLAGS }
          = s.take IF_NAME_SIZE) := by
  have hsz : IF_NAME_SIZE ≤ s.length := by
    simp only [IF_NAME_SIZE] at hlen ⊢; omega
  have hfill : fillName s = s.take IF_NAME_SIZE := by
    simp [fillName, Nat.sub_eq_zero_of_le hsz]
  refine ⟨?_, ?_, ?_⟩
  · simp [IfReq.new, hne, hascii, hfill]
  · simp [List.length_take]
    omega
  · intro hnz
    have := takeWhile_append_of_all (· != 0) (s.take IF_NAME_SIZE) []
      (fun b hb => by simpa using hnz b hb)
    simpa [IfReq.getName] using this

/-- C3 witness: the amended theorem evaluated on the 20-byte name of `a`s. -/
theorem claim3_witness :
    IfReq.new (List.replicate 20 97) =
      .ok { name := (List.replicate 20 97).take IF_NAME_SIZE, flags := IFF_FLAGS }
    ∧ ((List.replicate 20 (97 : Nat)).take IF_NAME_SIZE).length = IF_NAME_SIZE
    ∧ ((∀ b ∈ (List.replicate 20 (97 : Nat)).take IF_NAME_SIZE, b ≠ 0) →
        IfReq.getName
            { name := (List.replicate 20 97).take IF_NAME_SIZE, flags := IFF_FLAGS }
          = (List.replicate 20 97).take IF_NAME_SIZE) :=
  claim3_truncates_to_capacity (List.replicate 20 97)
    (by decide) (by decide) (by decide)

/-! ## C7: round-trip of short names -/

/-- C7 counterexample.  The claim quantifies over every non-empty ASCII name of
length at most `capacity − 1`; the three-byte name `['a', NUL, 'b']` is such a
name (NUL is an ASCII byte), yet reading the name back stops at the embedded
NUL and returns `['a']`, not the input. -/
theorem claim7_counterexample :
    ([97, 0, 98] : List Nat).isEmpty = false
    ∧ isAscii [97, 0, 98] = true
    ∧ ([97, 0, 98] : List Nat).length ≤ IF_NAME_SIZE - 1
    ∧ (IfReq.new [97, 0, 98]).map IfReq.getName = .ok [97]
    ∧ ([97] : List Nat) ≠ [97, 0, 98] :=
  ⟨rfl, rfl, by decide, rfl, by decide⟩

/-- C7 amended: for every non-empty name of ASCII bytes, of length at most
`capacity − 1` and containing no zero byte, building the interface request and
reading the name back is the identity. -/
theorem claim7_roundtrip_nul_free (s : List Nat)
    (hne : s.isEmpty = false) (hascii : isAscii s = true)
    (hlen : s.length ≤ IF_NAME_SIZE - 1) (hnz : ∀ b ∈ s, b ≠ 0) :
    (IfReq.new s).map IfReq.getName = .ok s := by
  have htake : s.take IF_NAME_SIZE = s :=
    List.take_of_length_le (by simp only [IF_NAME_SIZE] at hlen ⊢; omega)
  have hpad : 1 ≤ IF_NAME_SIZE - s.length := by
    simp only [IF_NAME_SIZE] at hlen ⊢; omega
  have hfill : fillName s = s ++ List.replicate (IF_NAME_SIZE - s.length) 0 := by
    simp [fillName, htake]
  have hnew : IfReq.new s = .ok { name := fillName s, flags := IFF_FLAGS } := by
    simp [IfReq.new, hne, hascii]
  rw [hnew, hfill]
  simp only [Except.map, IfReq.getName]
  rw [takeWhile_append_of_all (· != 0) s _ (fun b hb => by simpa using hnz b hb),
    takeWhile_replicate_zero _ hpad, List.append_nil]

/-- C7 witness: the amended round-trip evaluated on the name `rip`. -/
theorem claim7_witness :
    (IfReq.new [114, 105, 112]).map IfReq.getName = .ok [114, 105, 112] :=
  claim7_roundtrip_nul_free [114, 105, 112] (by decide) (by decide)
    (by decide) (by decide)

/-! ## C6: descriptor duplication through Clone -/

/-- C6 counterexample.  `Queue` derives `Clone`, a public operation, so from
one open queue holding descriptor 3 a second independent `Queue` value holding
the same descriptor is produced; closing the original invokes the OS close on
3 (and installs the `-1` sentinel in that value only), and closing the clone
invokes the OS close on 3 again — two independent close operations on the same
descriptor, contradicting the claim. -/
theorem claim6_counterexample :
    Queue.clone { fd := 3 } = ({ fd := 3 } : Queue)
    ∧ (Queue.close { fd := 3 } (fun _ => 0) 0).called = 3
    ∧ (Queue.close { fd := 3 } (fun _ => 0) 0).queue.fd = -1
    ∧ (Queue.close (Queue.clone { fd := 3 }) (fun _ => 0) 0).called = 3 :=
  ⟨rfl, rfl, rfl, rfl⟩

/-- C6 amended: `Queue` derives `Clone`, so public operations can duplicate a
queue; a clone holds the very same descriptor and its close invokes the OS
close on that same descriptor, so at-most-once closing is a caller obligation,
not enforced by the type.  Within a single queue value, a successful close
replaces the stored descriptor with the `-1` sentinel. -/
theorem claim6_clone_shares_descriptor (q : Queue) (os : Int → Int) (errno : Nat) :
    Queue.clone q = q
    ∧ (Queue.close (Queue.clone q) os errno).called = (Queue.close q os errno).called
    ∧ (Queue.close q os errno).called = q.fd
    ∧ (0 ≤ os q.fd → (Queue.close q os errno).queue.fd = -1) := by
  refine ⟨rfl, rfl, ?_, ?_⟩
  · simp only [Queue.close]
    split <;> rfl
  · intro h
    simp [Queue.close, Int.not_lt.mpr h]

/-- C6 witness: the amended statement evaluated on descriptor 7 with a
succeeding OS close. -/
theorem claim6_witness :
    Queue.clone { fd := 7 } = ({ fd := 7 } : Queue)
    ∧ (Queue.close (Queue.clone { fd := 7 }) (fun _ => 0) 0).called
        = (Queue.close { fd := 7 } (fun _ => 0) 0).called
    ∧ (Queue.close { fd := 7 } (fun _ => 0) 0).called = (7 : Int)
    ∧ ((0 : Int) ≤ (fun _ => (0 : Int)) (7 : Int) →
        (Queue.close { fd := 7 } (fun _ => 0) 0).queue.fd = -1) :=
  claim6_clone_shares_descriptor { fd := 7 } (fun _ => 0) 0

/-! ## C10: close only invalidates on success -/

/-- C10: `Queue::close` mutates the stored descriptor only on success: when the
OS close fails the error is returned with the queue value unchanged, and only
on success is the descriptor field replaced by the `-1` sentinel.  In both
cases the syscall was invoked on the stored descriptor. -/
theorem claim10_close_updates_only_on_success (q : Queue) (os : Int → Int)
    (errno : Nat) :
    (os q.fd < 0 → Queue.close q os errno
        = { queue := q, result := .error (.Unix errno), called := q.fd })
    ∧ (0 ≤ os q.fd → Queue.close q os errno
        = { queue := { fd := -1 }, result := .ok (), called := q.fd }) := by
  constructor
  · intro h
    simp [Queue.close, h]
  · intro h
    simp [Queue.close, Int.not_lt.mpr h]

/-- C10 witness: close of descriptor 5, once with the OS failing (errno 9) and
once with it succeeding. -/
theorem claim10_witness :
    Queue.close { fd := 5 } (fun _ => -1) 9
      = { queue := { fd := 5 }, result := .error (.Unix 9), called := 5 }
    ∧ Queue.close { fd := 5 } (fun _ => 0) 9
      = { queue := { fd := -1 }, result := .ok (), called := 5 } :=
  ⟨(claim10_close_updates_only_on_success { fd := 5 } (fun _ => -1) 9).1 (by decide),
   (claim10_close_updates_only_on_success { fd := 5 } (fun _ => 0) 9).2 (by decide)⟩

/-! ## C9: idempotence of set_non_blocking -/

/-- When the descriptor flags are representable in `OFlag` and the
non-blocking bit already matches the request, `set_non_blocking` is a
successful no-op that issues no `F_SETFL`. -/
lemma set_non_blocking_noop (flags : Nat) (os : FcntlOs) (enable : Bool)
    (hg : os.getflOk = true) (hrep : flags &&& OFlagKnownBits = flags)
    (hmatch : (flags &&& O_NONBLOCK == O_NONBLOCK) = enable) :
    Queue.set_non_blocking flags os enable
      = { flags := flags, result := .ok (), wrote := false } := by
  have hparse : oflagFromBits flags = some flags := by
    simp [oflagFromBits, hrep]
  cases enable <;>
    simp [Queue.set_non_blocking, hg, hparse, hmatch]

/-- C9: `set_non_blocking` is idempotent.  If the descriptor's non-blocking
bit already matches the requested state (and the reported flags are
`OFlag`-representable, which holds for every status-flag combination the
kernel reports), the call succeeds as a no-op without rewriting flags; and
calling `set_non_blocking(true)` twice in succession yields the same
descriptor-flag state as calling it once, with the second call succeeding
without issuing any flag write. -/
theorem claim9_set_non_blocking_idempotent (flags : Nat) (os os2 : FcntlOs)
    (enable : Bool) (hrep : flags &&& OFlagKnownBits = flags)
    (hg : os.getflOk = true) (hs : os.setflOk = true) (hg2 : os2.getflOk = true) :
    (((flags &&& O_NONBLOCK == O_NONBLOCK) = enable) →
        Queue.set_non_blocking flags os enable
          = { flags := flags, result := .ok (), wrote := false })
    ∧ ((Queue.set_non_blocking flags os true).result = .ok ()
        ∧ Queue.set_non_blocking (Queue.set_non_blocking flags os true).flags os2 true
            = { flags := (Queue.set_non_blocking flags os true).flags,
                result := .ok (), wrote := false }) := by
  have hparse : oflagFromBits flags = some flags := by
    simp [oflagFromBits, hrep]
  constructor
  · intro hmatch
    exact set_non_blocking_noop flags os enable hg hrep hmatch
  · by_cases hbit : (flags &&& O_NONBLOCK == O_NONBLOCK) = true
    · have h1 := set_non_blocking_noop flags os true hg hrep hbit
      rw [h1]
      exact ⟨rfl, set_non_blocking_noop flags os2 true hg2 hrep hbit⟩
    · have hbit2 : (flags &&& O_NONBLOCK == O_NONBLOCK) = false := by
        revert hbit; cases flags &&& O_NONBLOCK == O_NONBLOCK <;> simp
      have h1 : Queue.set_non_blocking flags os true
          = { flags := flags ||| O_NONBLOCK, result := .ok (), wrote := true } := by
        simp [Queue.set_non_blocking, hg, hs, hparse, hbit2]
      rw [h1]
      have hrep2 : (flags ||| O_NONBLOCK) &&& OFlagKnownBits = flags ||| O_NONBLOCK :=
        lor_land_mask flags O_NONBLOCK OFlagKnownBits hrep (by decide)
      have hmatch2 : ((flags ||| O_NONBLOCK) &&& O_NONBLOCK == O_NONBLOCK) = true := by
        simp [lor_land_self]
      exact ⟨rfl, set_non_blocking_noop (flags ||| O_NONBLOCK) os2 true hg2 hrep2 hmatch2⟩

/-- C9 witness: descriptor flags `O_RDWR` with both fcntl syscalls
succeeding, requesting `false` for the matching no-op part. -/
theorem claim9_witness :
    (((2 &&& O_NONBLOCK == O_NONBLOCK) = false) →
        Queue.set_non_blocking 2 ⟨true, true, 0⟩ false
          = { flags := 2, result := .ok (), wrote := false })
    ∧ ((Queue.set_non_blocking 2 ⟨true, true, 0⟩ true).result = .ok ()
        ∧ Queue.set_non_blocking (Queue.set_non_blocking 2 ⟨true, true, 0⟩ true).flags
            ⟨true, true, 0⟩ true
            = { flags := (Queue.set_non_blocking 2 ⟨true, true, 0⟩ true).flags,
                result := .ok (), wrote := false }) :=
  claim9_set_non_blocking_idempotent 2 ⟨true, true, 0⟩ ⟨true, true, 0⟩ false
    (by decide) rfl rfl rfl

/-! ## C2: cleanup on construction failure -/

/-- A single open attempt never issues a close syscall. -/
lemma openModel_no_close (o : OpenOutcome) :
    ((Queue.openModel o).2.all fun ev => !ev.isClose) = true := by
  cases o with
  | fsFail errno => rfl
  | opened fd ioctl =>
    cases ioctl with
    | error e => rfl
    | ok ret =>
      by_cases h : ret ≥ 1 <;> simp [Queue.openModel, h, Ev.isClose]

/-- The queue-opening loop never issues a close syscall. -/
lemma openLoop_no_close (os : Nat → OpenOutcome) :
    ∀ n start, ((openLoop os start n).2.all fun ev => !ev.isClose) = true := by
  intro n
  induction n with
  | zero => intro _; rfl
  | succ m ih =>
    intro start
    have h1 := openModel_no_close (os start)
    rcases hQ : Queue.openModel (os start) with ⟨r, evs⟩
    rw [hQ] at h1
    cases r with
    | error e => simp [openLoop, hQ, h1]
    | ok q =>
      have h2 := ih (start + 1)
      rcases hL : openLoop os (start + 1) m with ⟨r2, evs2⟩
      rw [hL] at h2
      cases r2 <;> simp [openLoop, hQ, hL, List.all_append, h1, h2]

/-- If the opens starting at `start` succeed for `i` iterations and the next
one fails with `e`, the whole loop returns `e`. -/
lemma openLoop_error_at (os : Nat → OpenOutcome) :
    ∀ i n start e, i < n →
      (∀ j, j < i → ∃ q, (Queue.openModel (os (start + j))).1 = .ok q) →
      (Queue.openModel (os (start + i))).1 = .error e →
      (openLoop os start n).1 = .error e := by
  intro i
  induction i with
  | zero =>
    intro n start e hn _ hfail
    obtain ⟨m, rfl⟩ : ∃ m, n = m + 1 := ⟨n - 1, by omega⟩
    rcases hQ : Queue.openModel (os start) with ⟨r, evs⟩
    rw [show start + 0 = start from rfl, hQ] at hfail
    simp only at hfail
    subst hfail
    simp [openLoop, hQ]
  | succ i ih =>
    intro n start e hn hok hfail
    obtain ⟨m, rfl⟩ : ∃ m, n = m + 1 := ⟨n - 1, by omega⟩
    obtain ⟨q, hq⟩ := hok 0 (by omega)
    rcases hQ : Queue.openModel (os start) with ⟨r, evs⟩
    rw [show start + 0 = start from rfl, hQ] at hq
    simp only at hq
    subst hq
    have hrec : (openLoop os (start + 1) m).1 = .error e := by
      apply ih m (start + 1) e (by omega)
      · intro j hj
        obtain ⟨q2, hq2⟩ := hok (j + 1) (by omega)
        exact ⟨q2, by rw [show start + 1 + j = start + (j + 1) by omega]; exact hq2⟩
      · rw [show start + 1 + i = start + (i + 1) by omega]
        exact hfail
    rcases hL : openLoop os (start + 1) m with ⟨r2, evs2⟩
    rw [hL] at hrec
    simp only at hrec
    subst hrec
    simp [openLoop, hQ, hL]

/-- C2 counterexample.  Opening two queues where the first open yields
descriptor 3 and the second fails: `Tun::new` returns the failure, but the
event trace contains only the `open` of descriptor 3 and no `close` syscall
at all — the successfully opened queue is leaked, not closed, contradicting
the claim that queues `0..i` are closed before the error is returned. -/
theorem claim2_counterexample :
    Tun.new [114, 105, 112] 2
        (fun i => if i = 0 then .opened 3 (.ok 0) else .fsFail 23)
      = (.error (.FS devNetTunPath 23), [.osOpen 3])
    ∧ ∀ ev ∈ [Ev.osOpen 3], ev.isClose = false :=
  ⟨rfl, by decide⟩

/-- C2 amended: if the i-th queue open fails during construction, `Tun::new`
returns that error and no partial device, but the queues successfully opened
before the failure are not closed before the error is returned — the
construction path never issues a close syscall, so their descriptors leak. -/
theorem claim2_new_leaks_opened_queues (name : List Nat) (num : Nat)
    (os : Nat → OpenOutcome) (i : Nat) (e : Error) (req : IfReq)
    (hnum : 1 ≤ num) (hi : i < num)
    (hname : IfReq.new name = .ok req)
    (hok : ∀ j, j < i → ∃ q, (Queue.openModel (os j)).1 = .ok q)
    (hfail : (Queue.openModel (os i)).1 = .error e) :
    (Tun.new name num os).1 = .error e
    ∧ ((Tun.new name num os).2.all fun ev => !ev.isClose) = true := by
  have hnl : ¬ num < 1 := by omega
  have hloop : (openLoop os 0 num).1 = .error e := by
    apply openLoop_error_at os i num 0 e hi
    · intro j hj; simpa using hok j hj
    · simpa using hfail
  have hnc := openLoop_no_close os num 0
  rcases hL : openLoop os 0 num with ⟨r, evs⟩
  rw [hL] at hloop hnc
  simp only at hloop
  subst hloop
  constructor <;> simp [Tun.new, new_queues, hname, hnl, hL, hnc]

/-- C2 witness: three queues requested, opens 0 and 1 succeed with descriptors
3 and 4, open 2 fails; the construction returns the failure and its syscall
trace contains no close. -/
theorem claim2_witness :
    (Tun.new [114, 105, 112] 3
        (fun j => if j < 2 then .opened (3 + Int.ofNat j) (.ok 0) else .fsFail 23)).1
      = .error (.FS devNetTunPath 23)
    ∧ ((Tun.new [114, 105, 112] 3
        (fun j => if j < 2 then .opened (3 + Int.ofNat j) (.ok 0) else .fsFail 23)).2.all
          fun ev => !ev.isClose) = true :=
  claim2_new_leaks_opened_queues [114, 105, 112] 3
    (fun j => if j < 2 then .opened (3 + Int.ofNat j) (.ok 0) else .fsFail 23)
    2 (.FS devNetTunPath 23)
    { name := [114, 105, 112, 0, 0, 0, 0, 0, 0, 0, 0, 0, 0, 0, 0, 0],
      flags := IFF_FLAGS }
    (by omega) (by omega) rfl
    (fun j hj => by
      match j, hj with
      | 0, _ => exact ⟨{ fd := 3 }, rfl⟩
      | 1, _ => exact ⟨{ fd := 4 }, rfl⟩)
    rfl

/-! ## C4: aggregate close on failure -/

/-- When every remaining close succeeds, the close loop closes every queue in
index order. -/
lemma closeLoop_all_ok (os : Int → Int) (errnoFn : Int → Nat) :
    ∀ l : List Queue, (∀ q ∈ l, 0 ≤ os q.fd) →
      closeLoop os errnoFn l = (.ok (), l.map fun q => .osClose q.fd) := by
  intro l
  induction l with
  | nil => intro _; rfl
  | cons q rest ih =>
    intro h
    have hq : 0 ≤ os q.fd := h q (by simp)
    have hcl : (Queue.close q os (errnoFn q.fd)).result = .ok () := by
      simp [Queue.close, Int.not_lt.mpr hq]
    simp [closeLoop, hcl, ih fun p hp => h p (by simp [hp])]

/-- When the closes succeed up to a queue whose close fails, the loop stops at
that queue: it returns the failure's error, and the syscall trace covers
exactly the prefix up to and including the failing queue. -/
lemma closeLoop_stops (os : Int → Int) (errnoFn : Int → Nat) :
    ∀ (pre : List Queue) (q : Queue) (post : List Queue),
      (∀ p ∈ pre, 0 ≤ os p.fd) → os q.fd < 0 →
      closeLoop os errnoFn (pre ++ q :: post)
        = (.error (.Unix (errnoFn q.fd)), (pre ++ [q]).map fun x => .osClose x.fd) := by
  intro pre
  induction pre with
  | nil =>
    intro q post _ hq
    have hcl : (Queue.close q os (errnoFn q.fd)).result = .error (.Unix (errnoFn q.fd)) := by
      simp [Queue.close, hq]
    simp [closeLoop, hcl]
  | cons p pre2 ih =>
    intro q post h hq
    have hp : 0 ≤ os p.fd := h p (by simp)
    have hcl : (Queue.close p os (errnoFn p.fd)).result = .ok () := by
      simp [Queue.close, Int.not_lt.mpr hp]
    simp [closeLoop, hcl, ih q post (fun x hx => h x (by simp [hx])) hq]

/-- C4 counterexample.  A device with queues on descriptors 3 and 4 where
closing 3 fails (errno 9) and closing 4 would succeed: `Tun::close` returns
the error after attempting only descriptor 3 — the syscall trace is
`[close(3)]` and no close of descriptor 4 is ever attempted, contradicting the
claim that the loop continues past the failure. -/
theorem claim4_counterexample :
    Tun.close { queues := [{ fd := 3 }, { fd := 4 }], name := [114] }
        (fun fd => if fd = 3 then -1 else 0) (fun _ => 9)
      = ({ queues := [], name := [114] }, .error (.Unix 9), [.osClose 3])
    ∧ Ev.osClose 4 ∉ [Ev.osClose 3] :=
  ⟨rfl, by decide⟩

/-- C4 amended: `Tun::close` attempts to close the remaining queues in index
order but stops at the first failure, returning that first error immediately;
the queues after the failing one are not closed (their close syscalls are
never issued) and every queue, closed or not, is removed from the device.
When every close succeeds, all queues are closed in index order. -/
theorem claim4_close_stops_at_first_error (t : Tun) (os : Int → Int)
    (errnoFn : Int → Nat) :
    ((∀ q ∈ t.queues, 0 ≤ os q.fd) →
        Tun.close t os errnoFn
          = ({ t with queues := [] }, .ok (), t.queues.map fun q => .osClose q.fd))
    ∧ (∀ (pre : List Queue) (q : Queue) (post : List Queue),
        t.queues = pre ++ q :: post →
        (∀ p ∈ pre, 0 ≤ os p.fd) → os q.fd < 0 →
        Tun.close t os errnoFn
          = ({ t with queues := [] }, .error (.Unix (errnoFn q.fd)),
             (pre ++ [q]).map fun x => .osClose x.fd)) := by
  constructor
  · intro h
    simp [Tun.close, closeLoop_all_ok os errnoFn t.queues h]
  · intro pre q post ht h hq
    simp [Tun.close, ht, closeLoop_stops os errnoFn pre q post h hq]

/-- C4 witness: descriptors 3, 4, 5 with the close of 4 failing — the trace
stops after `close(4)`; and the all-success case closes every descriptor. -/
theorem claim4_witness :
    Tun.close { queues := [{ fd := 3 }, { fd := 4 }, { fd := 5 }], name := [114] }
        (fun fd => if fd = 4 then -1 else 0) (fun _ => 9)
      = ({ queues := [], name := [114] }, .error (.Unix 9), [.osClose 3, .osClose 4])
    ∧ Tun.close { queues := [{ fd := 3 }, { fd := 4 }, { fd := 5 }], name := [114] }
        (fun _ => 0) (fun _ => 9)
      = ({ queues := [], name := [114] }, .ok (),
         [.osClose 3, .osClose 4, .osClose 5]) :=
  ⟨(claim4_close_stops_at_first_error
      { queues := [{ fd := 3 }, { fd := 4 }, { fd := 5 }], name := [114] }
      (fun fd => if fd = 4 then -1 else 0) (fun _ => 9)).2
      [{ fd := 3 }] { fd := 4 } [{ fd := 5 }] rfl (by decide) (by decide),
   (claim4_close_stops_at_first_error
      { queues := [{ fd := 3 }, { fd := 4 }, { fd := 5 }], name := [114] }
      (fun _ => 0) (fun _ => 9)).1 (by decide)⟩

/-! ## C8: out-of-range queue indices -/

/-- C8: for every device and every index at or beyond the queue count,
`Tun::get` returns no queue and `Tun::send_via`/`Tun::recv_via` return the
`InvalidQueue` error carrying that index, converted to an I/O-compatible
error.  The embedding is total — the checked `Vec` lookup means no panic and
no out-of-bounds access on this path. -/
theorem claim8_out_of_range_safe (t : Tun) (k : Nat) (datagram : List Nat)
    (written readRet : Int) (errno : Nat) (hk : t.queues.length ≤ k) :
    t.get k = none
    ∧ t.send_via k datagram written errno = .error (Error.into_io (.InvalidQueue k))
    ∧ t.recv_via k datagram readRet errno = .error (Error.into_io (.InvalidQueue k)) := by
  have hget : t.get k = none := List.get?_eq_none.mpr hk
  exact ⟨hget, by simp [Tun.send_via, hget], by simp [Tun.recv_via, hget]⟩

/-- C8 witness: a one-queue device probed at index 5. -/
theorem claim8_witness :
    Tun.get { queues := [{ fd := 3 }], name := [114] } 5 = none
    ∧ Tun.send_via { queues := [{ fd := 3 }], name := [114] } 5 [1, 2] 2 0
      = .error (Error.into_io (.InvalidQueue 5))
    ∧ Tun.recv_via { queues := [{ fd := 3 }], name := [114] } 5 [1, 2] 2 0
      = .error (Error.into_io (.InvalidQueue 5)) :=
  claim8_out_of_range_safe { queues := [{ fd := 3 }], name := [114] } 5 [1, 2] 2 2 0
    (by decide)

/-! ## C1: multiplexer retry semantics -/

/-- C1: in the multiplexed recv/send loops of both async devices, a would-block
result from the raw I/O attempt on the winning queue is the only condition that
continues the loop, and the continuation re-runs the race over the same full
device (`muxRun n rest` / `tokioMuxRun trest`, with all `n` readiness futures
rebuilt) rather than trying another queue within the same iteration; an error
from the winning readiness wait, and every non-would-block raw I/O error, is
returned immediately; and provided readiness waits do not themselves fail with
a would-block-kind error, no error the loop returns has the would-block kind. -/
theorem claim1_mux_would_block_retry_only (n : Nat) (s : MuxStep)
    (rest : List MuxStep) (ts : TokioMuxStep) (trest : List TokioMuxStep)
    (hidx : s.winIdx < n) :
    (∀ e, s.ready = .error e → muxRun n (s :: rest) = some (.error e))
    ∧ (∀ e, s.ready = .ok () → s.io = .error e → e.kindWouldBlock = true →
        muxRun n (s :: rest) = muxRun n rest)
    ∧ (∀ e, s.ready = .ok () → s.io = .error e → e.kindWouldBlock = false →
        muxRun n (s :: rest) = some (.error e))
    ∧ (∀ c, s.ready = .ok () → s.io = .ok c → muxRun n (s :: rest) = some (.ok c))
    ∧ (∀ sched : List MuxStep,
        (∀ st ∈ sched, ∀ e, st.ready = .error e → e.kindWouldBlock = false) →
        ∀ e, muxRun n sched = some (.error e) → e.kindWouldBlock = false)
    ∧ (∀ e, ts.ready = .error e → tokioMuxRun (ts :: trest) = some (.error e))
    ∧ (∀ e, ts.ready = .ok () → ts.io = .error e → e.kindWouldBlock = true →
        tokioMuxRun (ts :: trest) = tokioMuxRun trest)
    ∧ (∀ e, ts.ready = .ok () → ts.io = .error e → e.kindWouldBlock = false →
        tokioMuxRun (ts :: trest) = some (.error e))
    ∧ (∀ c, ts.ready = .ok () → ts.io = .ok c →
        tokioMuxRun (ts :: trest) = some (.ok c))
    ∧ (∀ tsched : List TokioMuxStep,
        (∀ st ∈ tsched, ∀ e, st.ready = .error e → e.kindWouldBlock = false) →
        ∀ e, tokioMuxRun tsched = some (.error e) → e.kindWouldBlock = false) := by
  refine ⟨?_, ?_, ?_, ?_, ?_, ?_, ?_, ?_, ?_, ?_⟩
  · intro e h
    simp [muxRun, h]
  · intro e hr hio hwb
    simp [muxRun, hr, hio, hwb, hidx]
  · intro e hr hio hwb
    simp [muxRun, hr, hio, hwb, hidx]
  · intro c hr hio
    simp [muxRun, hr, hio, hidx]
  · intro sched
    induction sched with
    | nil => intro _ e h; simp [muxRun] at h
    | cons st rest2 ih =>
      intro hready e h
      rcases hr : st.ready with e2 | u
      · simp only [muxRun, hr, Option.some.injEq, Except.error.injEq] at h
        subst h
        exact hready st (by simp) e2 hr
      · by_cases hlt : st.winIdx < n
        · rcases hio : st.io with e3 | c
          · simp only [muxRun, hr, hio, if_pos hlt] at h
            by_cases hwb : e3.kindWouldBlock = true
            · rw [if_pos hwb] at h
              exact ih (fun x hx => hready x (by simp [hx])) e h
            · rw [if_neg hwb] at h
              simp only [Option.some.injEq, Except.error.injEq] at h
              subst h
              simpa using hwb
          · simp only [muxRun, hr, hio, if_pos hlt] at h
            simp at h
        · simp only [muxRun, hr, if_neg hlt, Option.some.injEq,
            Except.error.injEq] at h
          subst h
          rfl
  · intro e h
    simp [tokioMuxRun, h]
  · intro e hr hio hwb
    simp [tokioMuxRun, hr, hio, hwb, tryIoTokio]
  · intro e hr hio hwb
    simp [tokioMuxRun, hr, hio, hwb, tryIoTokio]
  · intro c hr hio
    simp [tokioMuxRun, hr, hio, tryIoTokio]
  · intro tsched
    induction tsched with
    | nil => intro _ e h; simp [tokioMuxRun] at h
    | cons st rest2 ih =>
      intro hready e h
      rcases hr : st.ready with e2 | u
      · simp only [tokioMuxRun, hr, Option.some.injEq, Except.error.injEq] at h
        subst h
        exact hready st (by simp) e2 hr
      · rcases hio : st.io with e3 | c
        · simp only [tokioMuxRun, hr, hio, tryIoTokio] at h
          by_cases hwb : e3.kindWouldBlock = true
          · rw [if_pos hwb] at h
            simp only [] at h
            exact ih (fun x hx => hready x (by simp [hx])) e h
          · rw [if_neg hwb] at h
            simp only [Option.some.injEq, Except.error.injEq] at h
            subst h
            simpa using hwb
        · simp only [tokioMuxRun, hr, hio, tryIoTokio] at h
          simp at h

/-- C1 witness: two-queue schedules where the first raw I/O attempt would
block and the race restarts and then succeeds, and one-step schedules where
the winning readiness wait fails and the error is returned as-is. -/
theorem claim1_witness :
    muxRun 2 [{ winIdx := 0, ready := .ok (), io := .error (.os EAGAIN) },
              { winIdx := 1, ready := .ok (), io := .ok 5 }] = some (.ok 5)
    ∧ muxRun 2 [{ winIdx := 0, ready := .error (.os 13), io := .ok 7 }]
      = some (.error (.os 13))
    ∧ tokioMuxRun [{ ready := .ok (), io := .error (.os EAGAIN) },
                   { ready := .ok (), io := .ok 4 }] = some (.ok 4)
    ∧ tokioMuxRun [{ ready := .error (.os 13), io := .ok 7 }]
      = some (.error (.os 13)) := by
  have h1 := claim1_mux_would_block_retry_only 2
    { winIdx := 0, ready := .ok (), io := .error (.os EAGAIN) }
    [{ winIdx := 1, ready := .ok (), io := .ok 5 }]
    { ready := .ok (), io := .error (.os EAGAIN) }
    [{ ready := .ok (), io := .ok 4 }] (by decide)
  have h2 := claim1_mux_would_block_retry_only 2
    { winIdx := 1, ready := .ok (), io := .ok 5 }
    [] { ready := .ok (), io := .ok 4 } [] (by decide)
  have h3 := claim1_mux_would_block_retry_only 2
    { winIdx := 0, ready := .error (.os 13), io := .ok 7 }
    [] { ready := .error (.os 13), io := .ok 7 } [] (by decide)
  refine ⟨?_, ?_, ?_, ?_⟩
  · exact (h1.2.1 (.os EAGAIN) rfl rfl rfl).trans (h2.2.2.2.1 5 rfl rfl)
  · exact h3.1 (.os 13) rfl
  · exact (h1.2.2.2.2.2.2.1 (.os EAGAIN) rfl rfl rfl).trans
      (h2.2.2.2.2.2.2.2.2.1 4 rfl rfl)
  · exact h3.2.2.2.2.2.1 (.os 13) rfl

/-! ## C5: what a successful multiplexed call returns -/

/-- C5 counterexample.  Two runs of the multiplexed loop that differ in the
winning queue's index (0 vs 1) return identical values: the returned value is
only the byte count (`io::Result<usize>`), so it cannot contain the winning
queue's index, contradicting the claim that the caller receives both. -/
theorem claim5_counterexample :
    (0 : Nat) ≠ 1
    ∧ muxRun 2 [{ winIdx := 0, ready := .ok (), io := .ok 5 }] = some (.ok 5)
    ∧ muxRun 2 [{ winIdx := 1, ready := .ok (), io := .ok 5 }] = some (.ok 5) :=
  ⟨by decide, rfl, rfl⟩

/-- C5 amended: on success, the multiplexed recv/send of both async devices
returns only the byte count of the completed I/O; the index of the winning
queue is used internally to address the queue but is not part of the value
returned to the caller. -/
theorem claim5_success_returns_count_only (n : Nat) (s : MuxStep)
    (rest : List MuxStep) (ts : TokioMuxStep) (trest : List TokioMuxStep)
    (c tc : Nat) (hidx : s.winIdx < n) (hready : s.ready = .ok ())
    (hio : s.io = .ok c) (tready : ts.ready = .ok ()) (tio : ts.io = .ok tc) :
    muxRun n (s :: rest) = some (.ok c)
    ∧ tokioMuxRun (ts :: trest) = some (.ok tc) := by
  constructor
  · simp [muxRun, hready, hidx, hio]
  · simp [tokioMuxRun, tready, tio, tryIoTokio]

/-- C5 witness: winning queue 1 of 2 completing a 9-byte transfer. -/
theorem claim5_witness :
    muxRun 2 [{ winIdx := 1, ready := .ok (), io := .ok 9 }] = some (.ok 9)
    ∧ tokioMuxRun [{ ready := .ok (), io := .ok 9 }] = some (.ok 9) :=
  claim5_success_returns_count_only 2
    { winIdx := 1, ready := .ok (), io := .ok 9 } []
    { ready := .ok (), io := .ok 9 } [] 9 9 (by decide) rfl rfl rfl rfl

end Riptun
